import Mathlib

/-!
Verification development for src/main.py of snyk-ps/snyk-tag-processor.

The Python program is an Azure-storage-queue consumer: `process_message`
decodes a job descriptor from a message body, checks an attempts cap,
polls an import-job status endpoint, resolves project ids over a paginated
listing endpoint, applies tags, and finishes with exactly one terminal
queue disposition (delete or requeue-with-backoff), while a background
`renew_lease` task periodically extends the message's visibility timeout.

The embedding below is translated from the source.  External collaborators
(the HTTP endpoints, the queue transport) are modelled as explicit oracle
inputs; the queue transport's own `delete_message`/`update_message` calls
are modelled as always succeeding (the claims under study concern the
consumer's control flow, not queue-transport faults).  Machine-level
caveats are noted at each definition.
-/

/-- Model of a decoded JSON value as produced by Python's `json.loads`.
Integers suffice for the numbers appearing in job descriptors; objects are
insertion-ordered association lists with unique keys, matching the dicts
`json.loads` produces. -/
inductive Json where
  | null : Json
  | bool (b : Bool) : Json
  | num (n : ℤ) : Json
  | str (s : String) : Json
  | arr (elems : List Json) : Json
  | obj (entries : List (String × Json)) : Json

/-- Association-list lookup on an object's entries (first match; keys are
unique in dicts produced by `json.loads`). -/
def lookupKey : List (String × Json) → String → Option Json
  | [], _ => none
  | (k', v) :: rest, k => if k' = k then some v else lookupKey rest k

/-- Lookup of a key on a JSON value: `content[k]` / `content.get(k)` on a
dict; non-objects have no keys. -/
def Json.lookup : Json → String → Option Json
  | .obj entries, k => lookupKey entries k
  | _, _ => none

/-- Python dict assignment `content[k] = v`: replaces the value of an
existing key in place (insertion order kept), otherwise appends the new
key at the end. -/
def setKey : List (String × Json) → String → Json → List (String × Json)
  | [], k, v => [(k, v)]
  | (k', v') :: rest, k, v =>
    if k' = k then (k, v) :: rest else (k', v') :: setKey rest k v

/-- Dict assignment lifted to JSON values.  `requeue_message` only ever
assigns into a value obtained from a successful `json.loads` of a message
body that earlier decoded to a dict, so the non-object branch is
unreachable there and returns the value unchanged. -/
def Json.setIn : Json → String → Json → Json
  | .obj entries, k, v => .obj (setKey entries k v)
  | j, _, _ => j

mutual
/-- Serialization of a JSON value in the style of Python's `json.dumps`
with its default separators (", " between items and ": " after keys).
String escaping is not modelled: the job-descriptor fields the claims
quantify over are assumed free of characters needing escapes. -/
def Json.dumps : Json → String
  | .null => "null"
  | .bool true => "true"
  | .bool false => "false"
  | .num n => toString n
  | .str s => "\"" ++ s ++ "\""
  | .arr l => "[" ++ Json.dumpsElems l ++ "]"
  | .obj l => "\x7b" ++ Json.dumpsEntries l ++ "\x7d"

/-- Comma-separated serialization of array elements. -/
def Json.dumpsElems : List Json → String
  | [] => ""
  | [j] => Json.dumps j
  | j :: rest => Json.dumps j ++ ", " ++ Json.dumpsElems rest

/-- Comma-separated serialization of object entries. -/
def Json.dumpsEntries : List (String × Json) → String
  | [] => ""
  | [(k, v)] => "\"" ++ k ++ "\": " ++ Json.dumps v
  | (k, v) :: rest => "\"" ++ k ++ "\": " ++ Json.dumps v ++ ", " ++ Json.dumpsEntries rest
end

/-- The entries of an object other than key `k`: the part of a serialized
body that a rewrite of key `k` must leave untouched. -/
def entriesExcept (j : Json) (k : String) : List (String × Json) :=
  match j with
  | .obj entries => entries.filter (fun kv => kv.1 ≠ k)
  | _ => []

/-- Configuration values read from the environment at module load
(src/main.py lines 27-35).  `maxAttempts` is `MAX_ATTEMPTS` (default 5),
`maxTimeoutMinutes` is `MAX_TIMEOUT_MINUTES` (default 30),
`visibilityTimeoutSeconds` is `VISIBILITY_TIMEOUT_SECONDS` (default 30),
and the URL/version strings are `SNYK_REST_API_URL`,
`SNYK_REST_API_VERSION` and `SNYK_V1_API_URL`. -/
structure Config where
  maxAttempts : ℕ
  maxTimeoutMinutes : ℕ
  visibilityTimeoutSeconds : ℕ
  restApiUrl : String
  restApiVersion : String
  v1ApiUrl : String

/-- Python's `in` operator on strings: substring containment. -/
def pyIn (needle hay : String) : Bool := decide (needle.toList <:+: hay.toList)

/-- Outcome of one HTTP POST attempted by `_post` (src/main.py lines
116-130): either the transport raised a `ClientError` before a status was
available, or the server answered with a status code. -/
inductive PostResult where
  | netErr : PostResult
  | status (code : ℕ) : PostResult

/-- The tagging URL built by `_tag_project` (src/main.py line 215). -/
def tagUrl (cfg : Config) (org_id project_id : String) : String :=
  cfg.v1ApiUrl ++ "org/" ++ org_id ++ "/project/" ++ project_id ++ "/tags"

/-- Model of `_post` (src/main.py lines 116-130) restricted to what the
caller can observe: a 422 on a URL containing "tags" is returned as-is;
any other status at or above 400 makes `raise_for_status` raise a
`ClientResponseError`, which the `except ClientError` clause turns into
`None`; a transport error also yields `None`; any other status is
returned. -/
def post_response (url : String) (r : PostResult) : Option ℕ :=
  match r with
  | .netErr => none
  | .status code =>
    if code == 422 && pyIn "tags" url then some 422
    else if 400 ≤ code then none
    else some code

/-- Model of `_tag_project` (src/main.py lines 201-233): true on status
200, true on 422 (already tagged), false on any other status or on a
`None` response.  The oracle `post` gives the server's behavior for the
one POST this call issues. -/
def tag_project (cfg : Config) (org_id project_id : String) (post : PostResult) : Bool :=
  match post_response (tagUrl cfg org_id project_id) post with
  | some code => if code == 200 then true else if code == 422 then true else false
  | none => false

/-- Inner loop of `tag_projects` over the tags of one project (src/main.py
lines 250-254): issues one call per tag, records it, and accumulates
`all_successful` without stopping early. -/
def tagTagsLoop (cfg : Config) (oracle : String → Json → PostResult) (org_id project_id : String) :
    List Json → List (String × Json) × Bool
  | [] => ([], true)
  | t :: ts =>
    let ok := tag_project cfg org_id project_id (oracle project_id t)
    let rest := tagTagsLoop cfg oracle org_id project_id ts
    ((project_id, t) :: rest.1, ok && rest.2)

/-- Model of `tag_projects` (src/main.py lines 235-255): the outer loop
over project ids, each running the inner loop over tags.  Returns the
ordered list of (project id, tag) pairs for which an apply call was
issued, together with the final `all_successful` flag. -/
def tag_projects (cfg : Config) (oracle : String → Json → PostResult) (org_id : String) :
    List String → List Json → List (String × Json) × Bool
  | [], _ => ([], true)
  | p :: ps, tags =>
    let inner := tagTagsLoop cfg oracle org_id p tags
    let rest := tag_projects cfg oracle org_id ps tags
    (inner.1 ++ rest.1, inner.2 && rest.2)

/-- One item of a listing page's `data` array, modelled well-formed: the
code reads `item["id"]` for items whose `item.get("type")` equals
"project" (src/main.py lines 179-181).  `rtype` models the JSON field
named "type". -/
structure RItem where
  id : String
  rtype : String

/-- One page returned by the listing endpoint: its `data` array and its
`links.next` value (absent on the last page). -/
structure PageData where
  data : List RItem
  next : Option String

/-- Server behavior for one listing fetch inside `retrieve_project_ids`:
the GET raised (network or HTTP error), the response JSON was falsy
(which the code turns into a `ProjectRetrievalError`), or a page came
back. -/
inductive FetchResult where
  | raised : FetchResult
  | empty : FetchResult
  | page (p : PageData) : FetchResult

/-- A single listing request as issued through `_get`: its URL and its
query parameters.  After the first page the code sets `params = {}`, and
`urlencode({})` is the empty string, which is falsy in `_get` (src/main.py
lines 98-100), so no query string is sent at all: query = none. -/
structure PageRequest where
  url : String
  query : Option (List (String × String))

/-- Errors that end the `while url` loop of `retrieve_project_ids`
abnormally. `raised` covers both an exception from `_get` and the
`ProjectRetrievalError` for a falsy response; both are re-raised at
src/main.py line 197.  `fuel` is a model artifact: the oracle list did
not specify a response for a request the loop still wanted to issue; the
real loop would simply keep running, so a `fuel` result corresponds to a
run that is still in flight, never to a completed one. -/
inductive RetrieveErr where
  | raised : RetrieveErr
  | fuel : RetrieveErr

/-- The ids the code extracts from one page (src/main.py lines 179-181):
`item["id"]` for every item whose type field equals "project", in array
order. -/
def pageIds (p : PageData) : List String :=
  (p.data.filter (fun it => it.rtype == "project")).map (fun it => it.id)

/-- The `while url` loop of `retrieve_project_ids` (src/main.py lines
174-197).  `server` lists the responses to successive fetches, in order.
On a page, its project ids are appended to the accumulator; a present
`links.next` makes the next URL the literal "https://api.snyk.io"
prepended to the link, with empty params (src/main.py lines 185-186);
an absent link ends the loop returning the accumulated ids.  Any raise
aborts the whole retrieval: no partial list is returned. -/
def retrieveLoop :
    List FetchResult → String → Option (List (String × String)) → List String →
    List PageRequest × Except RetrieveErr (List String)
  | [], url, q, _ => ([⟨url, q⟩], .error .fuel)
  | r :: rest, url, q, acc =>
    match r with
    | .raised => ([⟨url, q⟩], .error .raised)
    | .empty => ([⟨url, q⟩], .error .raised)
    | .page p =>
      let acc2 := acc ++ pageIds p
      match p.next with
      | none => ([⟨url, q⟩], .ok acc2)
      | some np =>
        let callRest := retrieveLoop rest ("https://api.snyk.io" ++ np) none acc2
        (⟨url, q⟩ :: callRest.1, callRest.2)

/-- The initial query parameters of `retrieve_project_ids` (src/main.py
lines 166-172), as the pairs handed to `urlencode`. -/
def initialListingParams (cfg : Config) (target_name branch : String) :
    List (String × String) :=
  [("version", cfg.restApiVersion), ("names_start_with", target_name),
   ("target_reference", branch), ("origins", "azure-repos"), ("limit", "100")]

/-- Model of `retrieve_project_ids` (src/main.py lines 147-199): the first
request targets `{rest_api_url}orgs/{org_id}/projects` with the filter
parameters; the loop then follows next links. -/
def retrieve_project_ids (cfg : Config) (server : List FetchResult)
    (target_name branch org_id : String) :
    List PageRequest × Except RetrieveErr (List String) :=
  retrieveLoop server (cfg.restApiUrl ++ "orgs/" ++ org_id ++ "/projects")
    (some (initialListingParams cfg target_name branch)) []

/-- The exact backoff value `MAX_TIMEOUT_MINUTES * (0.5 ** (MAX_ATTEMPTS -
attempts))` of src/main.py line 391, in minutes, as a rational.  `p` is
the already-incremented attempt count.  Python evaluates this in binary
floating point, where 0.5 ** k is a power of two and the products with
the integers involved are exact for every realistic configuration
(`MAX_TIMEOUT_MINUTES * 60 < 2^53`), so the rational value is the float
value. -/
def backoffMinutes (cfg : Config) (p : ℤ) : ℚ :=
  (cfg.maxTimeoutMinutes : ℚ) * (1/2) ^ ((cfg.maxAttempts : ℤ) - p)

/-- Result of `requeue_message`: the rewritten body it serializes into the
queue update, and the `visibility_timeout` seconds it passes. -/
structure RequeueResult where
  body : Json
  visibilitySeconds : ℤ

/-- Model of `requeue_message` (src/main.py lines 373-399): increments the
given attempts value, writes it into the parsed body under key "attempts",
and computes `timeout_seconds = int(timeout_minutes * 60)`.  `int()`
truncates toward zero; the minutes value is nonnegative, so truncation is
the floor. -/
def requeue_message (cfg : Config) (content : Json) (attempts : ℤ) : RequeueResult :=
  let a := attempts + 1
  { body := content.setIn "attempts" (.num a)
    visibilitySeconds := Rat.floor (backoffMinutes cfg a * 60) }

/-- One step of the `renew_lease` background task (src/main.py lines
258-276): a timed suspension, or an `update_message` call extending the
visibility timeout. -/
inductive REv where
  | sleep (seconds : ℕ) : REv
  | renewCall : REv

/-- Model of `renew_lease` (src/main.py lines 258-276): each iteration
first sleeps `VISIBILITY_TIMEOUT_SECONDS // 2` seconds (Python floor
division), then issues the renewal call; a failed renewal (`ok i` false
for iteration `i`) breaks the loop.  `fuel` bounds the number of modelled
iterations of the endless loop. -/
def renew_lease (cfg : Config) (ok : ℕ → Bool) : ℕ → ℕ → List REv
  | 0, _ => []
  | fuel + 1, i =>
    .sleep (cfg.visibilityTimeoutSeconds / 2) :: .renewCall ::
      (if ok i then renew_lease cfg ok fuel (i + 1) else [])

/-- A decoded job descriptor (src/main.py lines 297-303): the five
required fields, the attempts count (`content.get("attempts", 0)`), and
`raw`, the parsed body object itself, which `requeue_message` re-parses
and rewrites. -/
structure JobContent where
  target_name : String
  branch : String
  tags : List Json
  org_id : String
  import_job_url : String
  attempts : ℤ
  raw : Json

/-- Outcome of decoding a message body (src/main.py lines 297-303),
covering Python's behavior case by case:
`malformed`: `json.loads` raised `JSONDecodeError` (caught at line 356);
`nonObject`: `json.loads` succeeded but produced a non-dict, so
  `content["target_name"]` raises `TypeError`, caught only by the
  `except Exception` clause at line 359, whose handler then reads the
  never-assigned local `attempts` and raises `UnboundLocalError`;
`missingKey`: a required key was absent, raising `KeyError` (caught at
  line 356);
`badAttempts`: all required keys present but the "attempts" value is not
  a number, so `attempts >= MAX_ATTEMPTS` raises `TypeError`, reaching
  the `except Exception` handler, whose `requeue_message` call then
  raises `TypeError` at `attempts += 1`;
`ok`: all fields decoded (attempts defaulting to 0 when absent). -/
inductive DecodeResult where
  | malformed : DecodeResult
  | nonObject : DecodeResult
  | missingKey : DecodeResult
  | badAttempts : DecodeResult
  | ok (c : JobContent) : DecodeResult

/-- Outcome of the `get_import_job_status` call (src/main.py lines
132-145, called at line 314): either `_get` raised, or a value was
returned - the response's "status" field, or `None` for a falsy
response. -/
inductive StatusOutcome where
  | raised : StatusOutcome
  | value (v : Option String) : StatusOutcome

/-- All collaborator behavior one `process_message` run can observe. -/
structure ProcessInput where
  decode : DecodeResult
  status : StatusOutcome
  server : List FetchResult
  tagOracle : String → Json → PostResult

/-- Observable actions of one `process_message` run, in program order:
starting the renewal task, the HTTP calls, the queue dispositions
(`delete_message` / the requeue `update_message`), and the
cancel-and-await teardown of the renewal task in the `finally` block. -/
inductive Ev where
  | startRenewer : Ev
  | getStatus (url : String) : Ev
  | listReq (url : String) (query : Option (List (String × String))) : Ev
  | tagPost (project_id : String) (tag : Json) : Ev
  | deleteMsg : Ev
  | updateMsg (visibilitySeconds : ℤ) (body : Json) : Ev
  | cancelRenewer : Ev

/-- How a `process_message` run ends: a normal return, an exception
propagating out of the function, or (model artifact, see `RetrieveErr`)
a run still awaiting a listing response the oracle did not specify. -/
inductive Outcome where
  | returned : Outcome
  | raised : Outcome
  | hung : Outcome
deriving DecidableEq

/-- The requeue disposition as `process_message` performs it (src/main.py
lines 334, 349, 354, 363): one `update_message` call with the rewritten
body and the computed backoff. -/
def requeueEvent (cfg : Config) (c : JobContent) : Ev :=
  let r := requeue_message cfg c.raw c.attempts
  .updateMsg r.visibilitySeconds r.body

/-- Model of `process_message` (src/main.py lines 279-370): the trace of
observable actions and how the run ends.  Queue-transport calls are
modelled as succeeding.  Branch map: decode failures are handled at lines
356-363; the attempts cap at 309-312; the status poll at 314; the
"complete" arm with resolution, tagging and the empty-ids delete at
315-344; "pending" and every other status both requeue (345-354); the
`finally` block (364-370) cancels and awaits the renewal task on every
exit path that leaves the function. -/
def process_message (cfg : Config) (inp : ProcessInput) : List Ev × Outcome :=
  match inp.decode with
  | .malformed => ([.startRenewer, .deleteMsg, .cancelRenewer], .returned)
  | .missingKey => ([.startRenewer, .deleteMsg, .cancelRenewer], .returned)
  | .nonObject => ([.startRenewer, .cancelRenewer], .raised)
  | .badAttempts => ([.startRenewer, .cancelRenewer], .raised)
  | .ok c =>
    if (cfg.maxAttempts : ℤ) ≤ c.attempts then
      ([.startRenewer, .deleteMsg, .cancelRenewer], .returned)
    else
      match inp.status with
      | .raised =>
        ([.startRenewer, .getStatus c.import_job_url, requeueEvent cfg c, .cancelRenewer],
         .returned)
      | .value v =>
        if v = some "complete" then
          let rr := retrieve_project_ids cfg inp.server c.target_name c.branch c.org_id
          let listEvs := rr.1.map (fun r => Ev.listReq r.url r.query)
          match rr.2 with
          | .error .fuel =>
            ([.startRenewer, .getStatus c.import_job_url] ++ listEvs, .hung)
          | .error .raised =>
            ([.startRenewer, .getStatus c.import_job_url] ++ listEvs ++
              [requeueEvent cfg c, .cancelRenewer], .returned)
          | .ok ids =>
            if ids.isEmpty then
              ([.startRenewer, .getStatus c.import_job_url] ++ listEvs ++
                [.deleteMsg, .cancelRenewer], .returned)
            else
              let tr := tag_projects cfg inp.tagOracle c.org_id ids c.tags
              let tagEvs := tr.1.map (fun pc => Ev.tagPost pc.1 pc.2)
              if tr.2 then
                ([.startRenewer, .getStatus c.import_job_url] ++ listEvs ++ tagEvs ++
                  [.deleteMsg, .cancelRenewer], .returned)
              else
                ([.startRenewer, .getStatus c.import_job_url] ++ listEvs ++ tagEvs ++
                  [requeueEvent cfg c, .cancelRenewer], .returned)
        else
          ([.startRenewer, .getStatus c.import_job_url, requeueEvent cfg c, .cancelRenewer],
           .returned)

/-- Whether an action is a terminal queue disposition. -/
def isDisposition : Ev → Bool
  | .deleteMsg => true
  | .updateMsg _ _ => true
  | _ => false

/-- Whether an action is the renewal-task teardown. -/
def isCancel : Ev → Bool
  | .cancelRenewer => true
  | _ => false

/-- Whether an action is an HTTP call (status poll, listing fetch, or tag
apply). -/
def isHttp : Ev → Bool
  | .getStatus _ => true
  | .listReq _ _ => true
  | .tagPost _ _ => true
  | _ => false

/-- Number of terminal queue dispositions in a trace. -/
def dispCount (t : List Ev) : ℕ := (t.filter isDisposition).length

/-- Number of HTTP calls in a trace. -/
def httpCount (t : List Ev) : ℕ := (t.filter isHttp).length

/-- Scans a trace and checks that no disposition occurs before the
renewal-task teardown has been seen. -/
def cancelSeenScan : Bool → List Ev → Bool
  | _, [] => true
  | seen, e :: rest =>
    if isDisposition e && !seen then false
    else cancelSeenScan (seen || isCancel e) rest

/-- Claim C1's ordering, as stated: every terminal disposition of the
trace is preceded by the renewal-task cancellation. -/
def cancelPrecedesDispositions (t : List Ev) : Bool := cancelSeenScan false t

/-- A trace whose renewal teardown is its very last action and occurs
nowhere else: the amended ordering the code actually guarantees. -/
def CancelIsLast (t : List Ev) : Prop :=
  ∃ pre, t = pre ++ [Ev.cancelRenewer] ∧ pre.filter isCancel = []

/-- A chain of listing pages as a well-behaved server serves them: every
page but the last carries a next link, the last does not. -/
def goodChain : List PageData → Bool
  | [] => false
  | [p] => p.next.isNone
  | p :: rest => !p.next.isNone && goodChain rest

/-- Scans a trace and decides whether its last action is the renewal
teardown and no earlier action is: the teardown ordering the `finally`
block actually produces. -/
def cancelLastScan : List Ev → Bool
  | [] => false
  | [e] => isCancel e
  | e :: rest => !isCancel e && cancelLastScan rest

/-- The default configuration of src/main.py lines 27-35. -/
def defaultConfig : Config :=
  { maxAttempts := 5, maxTimeoutMinutes := 30, visibilityTimeoutSeconds := 30,
    restApiUrl := "https://api.snyk.io/rest/", restApiVersion := "2024-10-15",
    v1ApiUrl := "https://api.snyk.io/v1/" }

/-- Entries of the spec's running-example message body, with three
attempts already recorded. -/
def exampleEntries : List (String × Json) :=
  [("target_name", Json.str "svc-a"), ("branch", Json.str "main"),
   ("tags", Json.arr [Json.obj [("key", Json.str "env"), ("value", Json.str "prod")]]),
   ("org_id", Json.str "org1"), ("import_job_url", Json.str "https://x/jobs/1"),
   ("attempts", Json.num 3)]

/-- The spec's running-example message body, parsed. -/
def exampleBody : Json := Json.obj exampleEntries

/-- The example job descriptor with its attempts count at the cap of the
default configuration. -/
def jobAtCap : JobContent :=
  { target_name := "svc-a", branch := "main",
    tags := [Json.obj [("key", Json.str "env"), ("value", Json.str "prod")]],
    org_id := "org1", import_job_url := "https://x/jobs/1",
    attempts := 5,
    raw := Json.obj (setKey exampleEntries "attempts" (Json.num 5)) }

/-- Collaborator behavior for a run on the at-cap message; the collaborators
are never reached on this input. -/
def inputAtCap : ProcessInput :=
  { decode := .ok jobAtCap, status := .value none, server := [],
    tagOracle := fun _ _ => .netErr }

/-- A run on a message whose body is valid JSON but not an object, such
as the body "[]". -/
def inputNonObject : ProcessInput :=
  { decode := .nonObject, status := .value none, server := [],
    tagOracle := fun _ _ => .netErr }

/-- A run on a message whose body is an object carrying a non-numeric
"attempts" value, such as "attempts": "3". -/
def inputBadAttempts : ProcessInput :=
  { decode := .badAttempts, status := .value none, server := [],
    tagOracle := fun _ _ => .netErr }

/-- A run on a message whose body is not valid JSON. -/
def inputMalformed : ProcessInput :=
  { decode := .malformed, status := .value none, server := [],
    tagOracle := fun _ _ => .netErr }

/-- A run on a message whose body lacks a required field such as org_id. -/
def inputMissingKey : ProcessInput :=
  { decode := .missingKey, status := .value none, server := [],
    tagOracle := fun _ _ => .netErr }

/-- A three-page listing chain serving two project ids per page. -/
def chainPages : List PageData :=
  [{ data := [{ id := "a", rtype := "project" }, { id := "b", rtype := "project" }],
     next := some "/rest/orgs/org1/projects?starting_after=1" },
   { data := [{ id := "c", rtype := "project" }, { id := "d", rtype := "project" }],
     next := some "/rest/orgs/org1/projects?starting_after=2" },
   { data := [{ id := "e", rtype := "project" }, { id := "f", rtype := "project" }],
     next := none }]

/-- The first page of `chainPages`, reused by the failing-chain witness. -/
def chainPageOne : PageData :=
  { data := [{ id := "a", rtype := "project" }, { id := "b", rtype := "project" }],
    next := some "/rest/orgs/org1/projects?starting_after=1" }

/-- A first page whose next link is an absolute URL of another region's
API host, followed by a last page. -/
def absNextServer : List FetchResult :=
  [FetchResult.page { data := [], next := some "https://api.eu.snyk.io/rest/orgs/org1/projects?starting_after=1" },
   FetchResult.page { data := [], next := none }]

/-! ### Helper lemmas -/

theorem ratFloor_eq_intFloor (q : ℚ) : Rat.floor q = Int.floor q := by
  rw [Rat.floor_def', ← Rat.floor_def]

theorem ratFloor_of_eq_intCast (q : ℚ) (n : ℤ) (h : q = (n : ℚ)) : Rat.floor q = n := by
  rw [ratFloor_eq_intFloor, h, Int.floor_intCast]

theorem ratFloor_natCast_div (n d : ℕ) :
    Rat.floor ((n : ℚ) / (d : ℚ)) = ((n / d : ℕ) : ℤ) := by
  rw [ratFloor_eq_intFloor, show ((n : ℚ)) = (((n : ℤ) : ℚ)) by push_cast; ring,
    Rat.floor_intCast_div_natCast]
  exact (Int.natCast_div n d).symm

theorem isCancel_listReq (u : String) (q : Option (List (String × String))) :
    isCancel (Ev.listReq u q) = false := rfl

theorem isCancel_tagPost (p : String) (t : Json) : isCancel (Ev.tagPost p t) = false := rfl

theorem isCancel_requeueEvent (cfg : Config) (c : JobContent) :
    isCancel (requeueEvent cfg c) = false := rfl

theorem cancelLastScan_append (l : List Ev) (h : ∀ e ∈ l, isCancel e = false) :
    cancelLastScan (l ++ [Ev.cancelRenewer]) = true := by
  induction l with
  | nil => rfl
  | cons e t ih =>
    have he : isCancel e = false := h e (by simp)
    cases t with
    | nil =>
      show (!isCancel e && cancelLastScan [Ev.cancelRenewer]) = true
      rw [he]; rfl
    | cons e2 t2 =>
      have ht : ∀ x ∈ e2 :: t2, isCancel x = false := fun x hx => h x (by simp [hx])
      calc cancelLastScan (e :: (e2 :: t2) ++ [Ev.cancelRenewer])
          = (!isCancel e && cancelLastScan ((e2 :: t2) ++ [Ev.cancelRenewer])) := rfl
        _ = true := by rw [ih ht, he]; rfl

theorem mem_listEvs_not_cancel (l : List PageRequest) :
    ∀ e ∈ l.map (fun r => Ev.listReq r.url r.query), isCancel e = false := by
  intro e he
  rcases List.mem_map.mp he with ⟨r, _, rfl⟩
  rfl

theorem mem_tagEvs_not_cancel (l : List (String × Json)) :
    ∀ e ∈ l.map (fun pc => Ev.tagPost pc.1 pc.2), isCancel e = false := by
  intro e he
  rcases List.mem_map.mp he with ⟨pc, _, rfl⟩
  rfl

theorem process_message_cancel_shape (cfg : Config) (inp : ProcessInput) :
    (process_message cfg inp).2 = Outcome.hung ∨
    cancelLastScan (process_message cfg inp).1 = true := by
  obtain ⟨dec, st, server, oracle⟩ := inp
  cases dec with
  | malformed => right; rfl
  | missingKey => right; rfl
  | nonObject => right; rfl
  | badAttempts => right; rfl
  | ok c =>
    by_cases hcap : (cfg.maxAttempts : ℤ) ≤ c.attempts
    · right
      simp only [process_message, if_pos hcap]
      rfl
    · cases st with
      | raised =>
        right
        simp only [process_message, if_neg hcap]
        rfl
      | value v =>
        by_cases hv : v = some "complete"
        · cases hrr : (retrieve_project_ids cfg server c.target_name c.branch c.org_id).2 with
          | error e =>
            cases e with
            | fuel =>
              left
              simp only [process_message, if_neg hcap, if_pos hv, hrr]
            | raised =>
              right
              simp only [process_message, if_neg hcap, if_pos hv, hrr]
              have h' := cancelLastScan_append
                ([Ev.startRenewer, Ev.getStatus c.import_job_url] ++
                  (retrieve_project_ids cfg server c.target_name c.branch c.org_id).1.map
                    (fun r => Ev.listReq r.url r.query) ++ [requeueEvent cfg c]) ?_
              · simpa only [List.append_assoc, List.cons_append, List.nil_append] using h'
              · intro e he
                simp only [List.mem_append, List.mem_cons, List.not_mem_nil, or_false] at he
                rcases he with ((rfl | rfl) | he) | rfl
                · rfl
                · rfl
                · exact mem_listEvs_not_cancel _ e he
                · rfl
          | ok ids =>
            by_cases hids : ids.isEmpty
            · right
              simp only [process_message, if_neg hcap, if_pos hv, hrr, if_pos hids]
              have h' := cancelLastScan_append
                ([Ev.startRenewer, Ev.getStatus c.import_job_url] ++
                  (retrieve_project_ids cfg server c.target_name c.branch c.org_id).1.map
                    (fun r => Ev.listReq r.url r.query) ++ [Ev.deleteMsg]) ?_
              · simpa only [List.append_assoc, List.cons_append, List.nil_append] using h'
              · intro e he
                simp only [List.mem_append, List.mem_cons, List.not_mem_nil, or_false] at he
                rcases he with ((rfl | rfl) | he) | rfl
                · rfl
                · rfl
                · exact mem_listEvs_not_cancel _ e he
                · rfl
            · by_cases htag : (tag_projects cfg oracle c.org_id ids c.tags).2
              · right
                simp only [process_message, if_neg hcap, if_pos hv, hrr, if_neg hids, if_pos htag]
                have h' := cancelLastScan_append
                  ([Ev.startRenewer, Ev.getStatus c.import_job_url] ++
                    (retrieve_project_ids cfg server c.target_name c.branch c.org_id).1.map
                      (fun r => Ev.listReq r.url r.query) ++
                    (tag_projects cfg oracle c.org_id ids c.tags).1.map
                      (fun pc => Ev.tagPost pc.1 pc.2) ++ [Ev.deleteMsg]) ?_
                · simpa only [List.append_assoc, List.cons_append, List.nil_append] using h'
                · intro e he
                  simp only [List.mem_append, List.mem_cons, List.not_mem_nil, or_false] at he
                  rcases he with (((rfl | rfl) | he) | he) | rfl
                  · rfl
                  · rfl
                  · exact mem_listEvs_not_cancel _ e he
                  · exact mem_tagEvs_not_cancel _ e he
                  · rfl
              · right
                simp only [process_message, if_neg hcap, if_pos hv, hrr, if_neg hids, if_neg htag]
                have h' := cancelLastScan_append
                  ([Ev.startRenewer, Ev.getStatus c.import_job_url] ++
                    (retrieve_project_ids cfg server c.target_name c.branch c.org_id).1.map
                      (fun r => Ev.listReq r.url r.query) ++
                    (tag_projects cfg oracle c.org_id ids c.tags).1.map
                      (fun pc => Ev.tagPost pc.1 pc.2) ++ [requeueEvent cfg c]) ?_
                · simpa only [List.append_assoc, List.cons_append, List.nil_append] using h'
                · intro e he
                  simp only [List.mem_append, List.mem_cons, List.not_mem_nil, or_false] at he
                  rcases he with (((rfl | rfl) | he) | he) | rfl
                  · rfl
                  · rfl
                  · exact mem_listEvs_not_cancel _ e he
                  · exact mem_tagEvs_not_cancel _ e he
                  · rfl
        · right
          simp only [process_message, if_neg hcap, if_neg hv]
          rfl

/-! ### Claim C1 -/

/-- C1 counterexample: on a well-formed message already at the attempts
cap, `process_message` issues its terminal `delete_message` call while
the lease-renewal task is still running, and only cancels and awaits it
afterwards, in the `finally` block - so the cancellation does not precede
the terminal call as the claim states. -/
theorem c1_cancel_before_terminal_false :
    (process_message defaultConfig inputAtCap).1 =
      [Ev.startRenewer, Ev.deleteMsg, Ev.cancelRenewer] ∧
    cancelPrecedesDispositions (process_message defaultConfig inputAtCap).1 = false := by
  constructor <;> rfl

/-- C1 (amended): on every run of `process_message` that actually exits,
the lease-renewal task is cancelled and awaited exactly once, as the very
last action of the run - that is, only after the terminal delete or
requeue call has already been issued, not before it; and the renewer's
first renewal call is issued after an initial sleep of
`VISIBILITY_TIMEOUT_SECONDS // 2` seconds (the floor of half the
visibility timeout, which is exactly half only for even timeouts). -/
theorem c1_renewer_teardown_last (cfg : Config) (inp : ProcessInput)
    (h : (process_message cfg inp).2 ≠ Outcome.hung) :
    cancelLastScan (process_message cfg inp).1 = true ∧
    (∀ ok fuel i, (renew_lease cfg ok (fuel + 1) i).head? =
      some (REv.sleep (cfg.visibilityTimeoutSeconds / 2))) ∧
    2 * (cfg.visibilityTimeoutSeconds / 2) ≤ cfg.visibilityTimeoutSeconds ∧
    cfg.visibilityTimeoutSeconds < 2 * (cfg.visibilityTimeoutSeconds / 2) + 2 := by
  refine ⟨?_, fun ok fuel i => rfl, by omega, by omega⟩
  exact (process_message_cancel_shape cfg inp).resolve_left h

/-- C1 witness: the amended ordering evaluated on the at-cap run. -/
theorem c1_renewer_teardown_last_witness :
    cancelLastScan (process_message defaultConfig inputAtCap).1 = true ∧
    2 * (defaultConfig.visibilityTimeoutSeconds / 2) ≤ defaultConfig.visibilityTimeoutSeconds :=
  ⟨(c1_renewer_teardown_last defaultConfig inputAtCap (by decide)).1,
   (c1_renewer_teardown_last defaultConfig inputAtCap (by decide)).2.2.1⟩

/-! ### Claim C2 -/

/-- C2 (code-bug exhibit): a message whose body is valid JSON but not an
object - for example the body "[]" - defeats the exactly-one-disposition
invariant.  `json.loads` succeeds, `content["target_name"]` raises
`TypeError`, which only the catch-all handler receives; that handler's
`requeue_message(message, queue_client, attempts)` call reads the local
`attempts` that was never assigned and raises `UnboundLocalError`, so the
run performs neither `delete_message` nor the requeue update and the
exception escapes `process_message`. -/
theorem c2_nonobject_body_no_disposition :
    (process_message defaultConfig inputNonObject).1 =
      [Ev.startRenewer, Ev.cancelRenewer] ∧
    (process_message defaultConfig inputNonObject).2 = Outcome.raised ∧
    dispCount (process_message defaultConfig inputNonObject).1 = 0 :=
  ⟨rfl, rfl, rfl⟩

/-! ### Claim C3 -/

/-- C3: on every well-formed message whose decoded attempts count is at
or above the configured maximum at the start of processing, the run's
whole trace is start-renewer, one `delete_message`, renewer teardown: the
disposition is delete, never requeue, and no status, listing or tag HTTP
call is made before (or after) it. -/
theorem c3_attempts_cap_always_deletes (cfg : Config) (inp : ProcessInput) (c : JobContent)
    (hdec : inp.decode = DecodeResult.ok c)
    (hcap : (cfg.maxAttempts : ℤ) ≤ c.attempts) :
    (process_message cfg inp).1 = [Ev.startRenewer, Ev.deleteMsg, Ev.cancelRenewer] ∧
    (process_message cfg inp).2 = Outcome.returned ∧
    httpCount (process_message cfg inp).1 = 0 := by
  obtain ⟨dec, st, server, oracle⟩ := inp
  simp only at hdec
  subst hdec
  have ht : process_message cfg ⟨DecodeResult.ok c, st, server, oracle⟩ =
      ([Ev.startRenewer, Ev.deleteMsg, Ev.cancelRenewer], Outcome.returned) := by
    simp only [process_message, if_pos hcap]
  rw [ht]
  exact ⟨rfl, rfl, rfl⟩

/-- C3 witness: the at-cap example message is deleted without any HTTP
call. -/
theorem c3_attempts_cap_always_deletes_witness :
    (process_message defaultConfig inputAtCap).1 =
      [Ev.startRenewer, Ev.deleteMsg, Ev.cancelRenewer] ∧
    (process_message defaultConfig inputAtCap).2 = Outcome.returned ∧
    httpCount (process_message defaultConfig inputAtCap).1 = 0 :=
  c3_attempts_cap_always_deletes defaultConfig inputAtCap jobAtCap rfl (by decide)

/-! ### Claim C8 -/

/-- C8 (code-bug exhibit): a message whose body is an object whose
"attempts" value is not a number - for example "attempts": "3" - makes
`attempts >= MAX_ATTEMPTS` raise `TypeError`; the catch-all handler then
calls `requeue_message`, whose `attempts += 1` raises `TypeError` again,
and that exception propagates out of `process_message` into
`asyncio.gather` in `main`, affecting the whole batch - so not every
error is converted into a disposition. -/
theorem c8_bad_attempts_exception_escapes :
    (process_message defaultConfig inputBadAttempts).1 =
      [Ev.startRenewer, Ev.cancelRenewer] ∧
    (process_message defaultConfig inputBadAttempts).2 = Outcome.raised ∧
    dispCount (process_message defaultConfig inputBadAttempts).1 = 0 :=
  ⟨rfl, rfl, rfl⟩

/-! ### Claim C9 -/

/-- C9: on every message whose body is malformed JSON (JSONDecodeError)
or is missing a required field (KeyError), the run deletes the message,
performs no requeue, and makes no HTTP call at all. -/
theorem c9_decode_failure_deletes_without_http (cfg : Config) (inp : ProcessInput)
    (h : inp.decode = DecodeResult.malformed ∨ inp.decode = DecodeResult.missingKey) :
    (process_message cfg inp).1 = [Ev.startRenewer, Ev.deleteMsg, Ev.cancelRenewer] ∧
    (process_message cfg inp).2 = Outcome.returned ∧
    httpCount (process_message cfg inp).1 = 0 := by
  obtain ⟨dec, st, server, oracle⟩ := inp
  simp only at h
  rcases h with h | h <;> subst h <;> exact ⟨rfl, rfl, rfl⟩

/-- C9 witness: a body missing org_id is deleted with zero HTTP calls. -/
theorem c9_decode_failure_deletes_without_http_witness :
    (process_message defaultConfig inputMissingKey).1 =
      [Ev.startRenewer, Ev.deleteMsg, Ev.cancelRenewer] ∧
    (process_message defaultConfig inputMissingKey).2 = Outcome.returned ∧
    httpCount (process_message defaultConfig inputMissingKey).1 = 0 :=
  c9_decode_failure_deletes_without_http defaultConfig inputMissingKey (Or.inr rfl)

/-! ### Claim C4 -/

theorem lookupKey_setKey_self (es : List (String × Json)) (k : String) (v : Json) :
    lookupKey (setKey es k v) k = some v := by
  induction es with
  | nil => simp [setKey, lookupKey]
  | cons kv rest ih =>
    obtain ⟨k', v'⟩ := kv
    by_cases h : k' = k
    · simp [setKey, h, lookupKey]
    · simp [setKey, h, lookupKey, ih]

theorem lookupKey_setKey_other (es : List (String × Json)) (k q : String) (v : Json)
    (h : q ≠ k) :
    lookupKey (setKey es k v) q = lookupKey es q := by
  induction es with
  | nil => simp [setKey, lookupKey, Ne.symm h]
  | cons kv rest ih =>
    obtain ⟨k', v'⟩ := kv
    by_cases hk : k' = k
    · subst hk
      simp [setKey, lookupKey, Ne.symm h]
    · by_cases hq : k' = q
      · subst hq
        simp [setKey, lookupKey, hk]
      · simp [setKey, hk, lookupKey, hq, ih]

theorem filter_setKey (es : List (String × Json)) (k : String) (v : Json) :
    (setKey es k v).filter (fun kv => kv.1 ≠ k) = es.filter (fun kv => kv.1 ≠ k) := by
  induction es with
  | nil => simp [setKey]
  | cons kv rest ih =>
    obtain ⟨k', v'⟩ := kv
    by_cases h : k' = k
    · simp [setKey, h]
    · simp only [setKey, if_neg h]
      rw [List.filter_cons, List.filter_cons, ih]

/-- C4: requeueing a message whose body decoded to an object with
attempts value `a` (defaulting to 0 when the field is absent), with `a`
below the cap, produces a body whose "attempts" field is exactly `a + 1`
while every other entry of the object - key, value, position, and hence
its serialized bytes - is unchanged. -/
theorem c4_requeue_rewrites_only_attempts (cfg : Config) (entries : List (String × Json))
    (a : ℤ)
    (hold : Json.lookup (Json.obj entries) "attempts" = some (Json.num a) ∨
      (Json.lookup (Json.obj entries) "attempts" = none ∧ a = 0))
    (hlt : a < (cfg.maxAttempts : ℤ)) :
    Json.lookup (requeue_message cfg (Json.obj entries) a).body "attempts" =
      some (Json.num (a + 1)) ∧
    (∀ q, q ≠ "attempts" →
      Json.lookup (requeue_message cfg (Json.obj entries) a).body q =
        Json.lookup (Json.obj entries) q) ∧
    entriesExcept (requeue_message cfg (Json.obj entries) a).body "attempts" =
      entriesExcept (Json.obj entries) "attempts" ∧
    Json.dumpsEntries
        (entriesExcept (requeue_message cfg (Json.obj entries) a).body "attempts") =
      Json.dumpsEntries (entriesExcept (Json.obj entries) "attempts") := by
  refine ⟨?_, ?_, ?_, ?_⟩
  · exact lookupKey_setKey_self entries "attempts" (Json.num (a + 1))
  · intro q hq
    exact lookupKey_setKey_other entries "attempts" q (Json.num (a + 1)) hq
  · exact filter_setKey entries "attempts" (Json.num (a + 1))
  · exact congrArg Json.dumpsEntries (filter_setKey entries "attempts" (Json.num (a + 1)))

/-- C4 witness: requeueing the example body at three attempts yields
attempts 4 and leaves the other fields untouched. -/
theorem c4_requeue_rewrites_only_attempts_witness :
    Json.lookup (requeue_message defaultConfig (Json.obj exampleEntries) 3).body "attempts" =
      some (Json.num (3 + 1)) ∧
    Json.lookup (requeue_message defaultConfig (Json.obj exampleEntries) 3).body "branch" =
      Json.lookup (Json.obj exampleEntries) "branch" ∧
    entriesExcept (requeue_message defaultConfig (Json.obj exampleEntries) 3).body "attempts" =
      entriesExcept (Json.obj exampleEntries) "attempts" :=
  ⟨(c4_requeue_rewrites_only_attempts defaultConfig exampleEntries 3 (Or.inl rfl)
      (by decide)).1,
   (c4_requeue_rewrites_only_attempts defaultConfig exampleEntries 3 (Or.inl rfl)
      (by decide)).2.1 "branch" (by decide),
   (c4_requeue_rewrites_only_attempts defaultConfig exampleEntries 3 (Or.inl rfl)
      (by decide)).2.2.1⟩

/-! ### Claim C5 -/

/-- C5 (amended): for every requeue issued with a pre-increment attempts
value below the cap, the visibility extension is the floor of
`base × 0.5^(maxAttempts − attempts) × 60` seconds computed with the
post-increment attempt count - equivalently `(base·60) / 2^(maxAttempts −
attempts)` in integer arithmetic - and is therefore a non-negative whole
number of seconds; the backoff formula doubles (not halves) when the
attempt count is incremented by 1, and equals the base exactly when the
post-increment count reaches `maxAttempts`. -/
theorem c5_backoff_formula (cfg : Config) (content : Json) (a : ℤ)
    (hle : a + 1 ≤ (cfg.maxAttempts : ℤ)) :
    0 ≤ (requeue_message cfg content a).visibilitySeconds ∧
    (requeue_message cfg content a).visibilitySeconds =
      (((cfg.maxTimeoutMinutes * 60) / 2 ^ ((cfg.maxAttempts : ℤ) - (a + 1)).toNat : ℕ) : ℤ) ∧
    (∀ p : ℤ, backoffMinutes cfg (p + 1) = 2 * backoffMinutes cfg p) ∧
    backoffMinutes cfg (cfg.maxAttempts : ℤ) = (cfg.maxTimeoutMinutes : ℚ) := by
  have h2 : (1/2 : ℚ) ≠ 0 := by norm_num
  have hmain : (requeue_message cfg content a).visibilitySeconds =
      (((cfg.maxTimeoutMinutes * 60) / 2 ^ ((cfg.maxAttempts : ℤ) - (a + 1)).toNat : ℕ) : ℤ) := by
    show Rat.floor (backoffMinutes cfg (a + 1) * 60) = _
    obtain ⟨e, he⟩ : ∃ e : ℕ, (cfg.maxAttempts : ℤ) - (a + 1) = (e : ℤ) :=
      ⟨((cfg.maxAttempts : ℤ) - (a + 1)).toNat, (Int.toNat_of_nonneg (by omega)).symm⟩
    have hto : ((cfg.maxAttempts : ℤ) - (a + 1)).toNat = e := by
      rw [he]; exact Int.toNat_natCast e
    rw [hto]
    have hq : backoffMinutes cfg (a + 1) * 60 =
        ((cfg.maxTimeoutMinutes * 60 : ℕ) : ℚ) / ((2 ^ e : ℕ) : ℚ) := by
      unfold backoffMinutes
      rw [he, zpow_natCast, div_pow, one_pow]
      push_cast
      field_simp
    rw [hq, ratFloor_natCast_div]
  refine ⟨?_, hmain, ?_, ?_⟩
  · rw [hmain]
    exact Int.natCast_nonneg _
  · intro p
    unfold backoffMinutes
    rw [show (cfg.maxAttempts : ℤ) - (p + 1) = ((cfg.maxAttempts : ℤ) - p) - 1 by ring,
      zpow_sub₀ h2, zpow_one]
    field_simp
    ring
  · unfold backoffMinutes
    rw [sub_self, zpow_zero, mul_one]

/-- C5 counterexample: with the default configuration (base 30 minutes,
cap 5), requeueing at attempts 2 extends visibility by 450 seconds and
requeueing at attempts 3 by 900 seconds: incrementing the attempt count
doubles the duration, so the claim that incrementing halves it is false
(900 is not 450 / 2). -/
theorem c5_increment_halves_false :
    (requeue_message defaultConfig exampleBody 3).visibilitySeconds = 900 ∧
    (requeue_message defaultConfig exampleBody 2).visibilitySeconds = 450 ∧
    (requeue_message defaultConfig exampleBody 3).visibilitySeconds ≠
      (requeue_message defaultConfig exampleBody 2).visibilitySeconds / 2 := by
  have h1 : (requeue_message defaultConfig exampleBody 3).visibilitySeconds = 900 := by
    show Rat.floor (backoffMinutes defaultConfig (3 + 1) * 60) = 900
    refine ratFloor_of_eq_intCast _ 900 ?_
    norm_num [backoffMinutes, defaultConfig]
  have h2 : (requeue_message defaultConfig exampleBody 2).visibilitySeconds = 450 := by
    show Rat.floor (backoffMinutes defaultConfig (2 + 1) * 60) = 450
    refine ratFloor_of_eq_intCast _ 450 ?_
    norm_num [backoffMinutes, defaultConfig]
  refine ⟨h1, h2, ?_⟩
  rw [h1, h2]
  decide

/-- C5 witness: the amended formula evaluated at attempts 3 under the
default configuration. -/
theorem c5_backoff_formula_witness :
    0 ≤ (requeue_message defaultConfig exampleBody 3).visibilitySeconds ∧
    (requeue_message defaultConfig exampleBody 3).visibilitySeconds =
      (((defaultConfig.maxTimeoutMinutes * 60) /
        2 ^ ((defaultConfig.maxAttempts : ℤ) - (3 + 1)).toNat : ℕ) : ℤ) :=
  ⟨(c5_backoff_formula defaultConfig exampleBody 3 (by decide)).1,
   (c5_backoff_formula defaultConfig exampleBody 3 (by decide)).2.1⟩

/-! ### Claim C6 -/

theorem pyIn_tags_tagUrl (cfg : Config) (org_id project_id : String) :
    pyIn "tags" (tagUrl cfg org_id project_id) = true := by
  apply decide_eq_true
  apply List.IsSuffix.isInfix
  refine ⟨(cfg.v1ApiUrl ++ "org/" ++ org_id ++ "/project/" ++ project_id).toList ++ ['/'], ?_⟩
  show _ = (cfg.v1ApiUrl ++ "org/" ++ org_id ++ "/project/" ++ project_id ++ "/tags").data
  rw [String.data_append]
  simp [String.toList]

theorem tag_project_true_iff (cfg : Config) (org_id project_id : String) (r : PostResult) :
    tag_project cfg org_id project_id r = true ↔
      r = PostResult.status 200 ∨ r = PostResult.status 422 := by
  cases r with
  | netErr => simp [tag_project, post_response]
  | status code =>
    simp only [tag_project, post_response, pyIn_tags_tagUrl, Bool.and_true]
    by_cases h422 : code = 422
    · subst h422
      simp
    · have hb : (code == 422) = false := by simp [h422]
      rw [hb]
      simp only [Bool.false_eq_true, if_false]
      by_cases h400 : 400 ≤ code
      · simp only [if_pos h400]
        have h200 : code ≠ 200 := by omega
        simp [h200, h422]
      · simp only [if_neg h400]
        by_cases h200 : code = 200
        · simp [h200]
        · simp [h200, h422, Ne.symm]

theorem tagTagsLoop_spec (cfg : Config) (oracle : String → Json → PostResult)
    (org_id project_id : String) (tags : List Json) :
    (tagTagsLoop cfg oracle org_id project_id tags).1 =
      tags.map (fun t => (project_id, t)) ∧
    ((tagTagsLoop cfg oracle org_id project_id tags).2 = true ↔
      ∀ t ∈ tags, oracle project_id t = PostResult.status 200 ∨
        oracle project_id t = PostResult.status 422) := by
  induction tags with
  | nil => simp [tagTagsLoop]
  | cons t ts ih =>
    refine ⟨by simp [tagTagsLoop, ih.1], ?_⟩
    simp only [tagTagsLoop, Bool.and_eq_true, ih.2, tag_project_true_iff,
      List.forall_mem_cons]

/-- C6: `tag_projects` issues exactly one apply call per resource × tag
pair, covering the full cross product with the outer loop over resources
and the inner loop over tags, regardless of any pair's outcome (so it
never stops early), and returns true exactly when every pair's POST came
back 200 (fresh success) or 422 (already applied). -/
theorem c6_tag_projects_cross_product (cfg : Config) (oracle : String → Json → PostResult)
    (org_id : String) (project_ids : List String) (tags : List Json) :
    (tag_projects cfg oracle org_id project_ids tags).1 =
      project_ids.flatMap (fun p => tags.map (fun t => (p, t))) ∧
    ((tag_projects cfg oracle org_id project_ids tags).2 = true ↔
      ∀ p ∈ project_ids, ∀ t ∈ tags,
        oracle p t = PostResult.status 200 ∨ oracle p t = PostResult.status 422) := by
  induction project_ids with
  | nil => simp [tag_projects]
  | cons p ps ih =>
    refine ⟨?_, ?_⟩
    · simp [tag_projects, (tagTagsLoop_spec cfg oracle org_id p tags).1, ih.1]
    · simp only [tag_projects, Bool.and_eq_true, ih.2,
        (tagTagsLoop_spec cfg oracle org_id p tags).2, List.forall_mem_cons]

/-! ### Claim C7 -/

theorem retrieveLoop_cons_page (p : PageData) (np : String) (rest : List FetchResult)
    (url : String) (q : Option (List (String × String))) (acc : List String)
    (hnp : p.next = some np) :
    retrieveLoop (FetchResult.page p :: rest) url q acc =
      (⟨url, q⟩ :: (retrieveLoop rest ("https://api.snyk.io" ++ np) none (acc ++ pageIds p)).1,
       (retrieveLoop rest ("https://api.snyk.io" ++ np) none (acc ++ pageIds p)).2) := by
  obtain ⟨d, n⟩ := p
  simp only at hnp
  subst hnp
  rfl

theorem retrieveLoop_cons_last (p : PageData) (rest : List FetchResult)
    (url : String) (q : Option (List (String × String))) (acc : List String)
    (hn : p.next = none) :
    retrieveLoop (FetchResult.page p :: rest) url q acc =
      ([⟨url, q⟩], Except.ok (acc ++ pageIds p)) := by
  obtain ⟨d, n⟩ := p
  simp only at hn
  subst hn
  rfl

theorem retrieveLoop_chain_ok (pages : List PageData) :
    ∀ (url : String) (q : Option (List (String × String))) (acc : List String),
      goodChain pages = true →
      (retrieveLoop (pages.map FetchResult.page) url q acc).2 =
        Except.ok (acc ++ pages.flatMap pageIds) := by
  induction pages with
  | nil => intro url q acc h; cases h
  | cons p rest ih =>
    intro url q acc h
    cases rest with
    | nil =>
      have hn : p.next = none := by
        have hh : p.next.isNone = true := h
        cases hp : p.next
        · rfl
        · rw [hp] at hh; cases hh
      rw [List.map_cons, List.map_nil, retrieveLoop_cons_last p [] url q acc hn]
      simp
    | cons p2 rest2 =>
      have h1 : p.next.isNone = false ∧ goodChain (p2 :: rest2) = true := by
        have hh := h
        simp only [goodChain, Bool.and_eq_true, Bool.not_eq_true'] at hh
        exact hh
      obtain ⟨np, hnp⟩ : ∃ np, p.next = some np := by
        cases hp : p.next
        · rw [hp] at h1; cases h1.1
        · exact ⟨_, rfl⟩
      rw [List.map_cons, retrieveLoop_cons_page p np _ url q acc hnp]
      show (retrieveLoop ((p2 :: rest2).map FetchResult.page) _ none (acc ++ pageIds p)).2 = _
      rw [ih _ none (acc ++ pageIds p) h1.2]
      simp [List.append_assoc]

theorem retrieveLoop_fail_aborts (pages : List PageData) :
    ∀ (bad : FetchResult) (rest : List FetchResult) (url : String)
      (q : Option (List (String × String))) (acc : List String),
      (pages.all fun p => !p.next.isNone) = true →
      (bad = FetchResult.raised ∨ bad = FetchResult.empty) →
      (retrieveLoop (pages.map FetchResult.page ++ bad :: rest) url q acc).2 =
        Except.error RetrieveErr.raised := by
  induction pages with
  | nil =>
    intro bad rest url q acc _ hbad
    rcases hbad with rfl | rfl <;> rfl
  | cons p ps ih =>
    intro bad rest url q acc hall hbad
    have hpair : (!p.next.isNone) = true ∧ (ps.all fun p => !p.next.isNone) = true := by
      simpa [List.all_cons] using hall
    obtain ⟨np, hnp⟩ : ∃ np, p.next = some np := by
      cases hp : p.next
      · rw [hp] at hpair; rcases hpair with ⟨h1, _⟩; cases h1
      · exact ⟨_, rfl⟩
    rw [List.map_cons, List.cons_append, retrieveLoop_cons_page p np _ url q acc hnp]
    exact ih bad rest _ none _ hpair.2 hbad

/-- C7: resolution over a well-formed chain of pages returns exactly the
concatenation of every page's project ids in page order, without
deduplication; and whenever any fetch of the chain fails (a raise from
the GET, or a falsy response body), the whole resolution surfaces an
error instead of returning the ids accumulated from the pages already
fetched. -/
theorem c7_pagination_concatenates_or_aborts :
    (∀ (pages : List PageData) (url : String) (q : Option (List (String × String)))
        (acc : List String), goodChain pages = true →
        (retrieveLoop (pages.map FetchResult.page) url q acc).2 =
          Except.ok (acc ++ pages.flatMap pageIds)) ∧
    (∀ (pages : List PageData) (bad : FetchResult) (rest : List FetchResult)
        (url : String) (q : Option (List (String × String))) (acc : List String),
        (pages.all fun p => !p.next.isNone) = true →
        (bad = FetchResult.raised ∨ bad = FetchResult.empty) →
        (retrieveLoop (pages.map FetchResult.page ++ bad :: rest) url q acc).2 =
          Except.error RetrieveErr.raised) :=
  ⟨fun pages url q acc h => retrieveLoop_chain_ok pages url q acc h,
   fun pages bad rest url q acc hall hbad =>
     retrieveLoop_fail_aborts pages bad rest url q acc hall hbad⟩

/-- C7 witness: three chained pages of two ids each resolve to the six
ids in page order, and a failure on the second fetch of the same chain
yields an error rather than the two ids of the first page. -/
theorem c7_pagination_concatenates_or_aborts_witness :
    (retrieveLoop (chainPages.map FetchResult.page)
        "https://api.snyk.io/rest/orgs/org1/projects" none []).2 =
      Except.ok ["a", "b", "c", "d", "e", "f"] ∧
    (retrieveLoop ([chainPageOne].map FetchResult.page ++
        FetchResult.raised :: []) "https://api.snyk.io/rest/orgs/org1/projects" none []).2 =
      Except.error RetrieveErr.raised := by
  constructor
  · rw [c7_pagination_concatenates_or_aborts.1 chainPages
      "https://api.snyk.io/rest/orgs/org1/projects" none [] rfl]
    rfl
  · exact c7_pagination_concatenates_or_aborts.2 [chainPageOne]
      FetchResult.raised [] "https://api.snyk.io/rest/orgs/org1/projects" none [] rfl
      (Or.inl rfl)

/-! ### Claim C10 -/

theorem retrieveLoop_first_req (server : List FetchResult) (url : String)
    (q : Option (List (String × String))) (acc : List String) :
    (retrieveLoop server url q acc).1[0]? = some ⟨url, q⟩ := by
  cases server with
  | nil => rfl
  | cons r rest =>
    cases r with
    | raised => rfl
    | empty => rfl
    | page p =>
      obtain ⟨d, n⟩ := p
      cases n with
      | none => rfl
      | some v => exact List.getElem?_cons_zero

/-- C10: for every page after the first, the request URL is the fixed
literal "https://api.snyk.io" prepended to the server-supplied
`links.next` value - whatever the configured REST base URL of the first
request was, and even when the next link is itself an absolute URL - and
the request carries no query parameters. -/
theorem c10_next_request_literal_prefix_no_query :
    ∀ (i : ℕ) (server : List FetchResult) (url : String)
      (q : Option (List (String × String))) (acc : List String) (p : PageData) (np : String),
      (∀ j, j < i → ∃ pj sj, server[j]? = some (FetchResult.page pj) ∧ pj.next = some sj) →
      server[i]? = some (FetchResult.page p) → p.next = some np →
      (retrieveLoop server url q acc).1[i + 1]? =
        some ⟨"https://api.snyk.io" ++ np, none⟩ := by
  intro i
  induction i with
  | zero =>
    intro server url q acc p np hprev hi hnp
    cases server with
    | nil => cases hi
    | cons r rest =>
      have hr : r = FetchResult.page p := by simpa using hi
      subst hr
      rw [retrieveLoop_cons_page p np rest url q acc hnp]
      show ((⟨url, q⟩ : PageRequest) ::
        (retrieveLoop rest ("https://api.snyk.io" ++ np) none (acc ++ pageIds p)).1)[0 + 1]? = _
      rw [List.getElem?_cons_succ]
      exact retrieveLoop_first_req _ _ _ _
  | succ n ih =>
    intro server url q acc p np hprev hi hnp
    cases server with
    | nil => cases hi
    | cons r rest =>
      obtain ⟨p0, s0, h0, hs0⟩ := hprev 0 (Nat.succ_pos n)
      have hr : r = FetchResult.page p0 := by simpa using h0
      subst hr
      rw [retrieveLoop_cons_page p0 s0 rest url q acc hs0]
      show ((⟨url, q⟩ : PageRequest) ::
        (retrieveLoop rest ("https://api.snyk.io" ++ s0) none (acc ++ pageIds p0)).1)[n + 1 + 1]? = _
      rw [List.getElem?_cons_succ]
      refine ih rest _ none _ p np ?_ ?_ hnp
      · intro j hj
        have := hprev (j + 1) (by omega)
        simpa using this
      · simpa using hi

/-- C10 witness: a first page whose next link is already an absolute URL
of another host still gets the literal prefix glued in front, and the
second request carries no query parameters. -/
theorem c10_next_request_literal_prefix_no_query_witness :
    (retrieveLoop absNextServer "https://api.eu.snyk.io/rest/orgs/org1/projects"
        (some []) []).1[0 + 1]? =
      some ⟨"https://api.snyk.io" ++
        "https://api.eu.snyk.io/rest/orgs/org1/projects?starting_after=1", none⟩ :=
  c10_next_request_literal_prefix_no_query 0 absNextServer
    "https://api.eu.snyk.io/rest/orgs/org1/projects" (some []) []
    { data := [], next := some "https://api.eu.snyk.io/rest/orgs/org1/projects?starting_after=1" }
    "https://api.eu.snyk.io/rest/orgs/org1/projects?starting_after=1"
    (fun j hj => absurd hj (Nat.not_lt_zero j)) rfl rfl

/-- C6 witness: two resources and two tags issue exactly the four calls
of the cross product, in order, and all-200 responses yield overall
success. -/
theorem c6_tag_projects_cross_product_witness :
    (tag_projects defaultConfig (fun _ _ => PostResult.status 200) "org1" ["p1", "p2"]
        [Json.str "a", Json.str "b"]).1 =
      ["p1", "p2"].flatMap (fun p => [Json.str "a", Json.str "b"].map (fun t => (p, t))) ∧
    (tag_projects defaultConfig (fun _ _ => PostResult.status 200) "org1" ["p1", "p2"]
        [Json.str "a", Json.str "b"]).2 = true :=
  ⟨(c6_tag_projects_cross_product defaultConfig (fun _ _ => PostResult.status 200) "org1"
      ["p1", "p2"] [Json.str "a", Json.str "b"]).1,
   (c6_tag_projects_cross_product defaultConfig (fun _ _ => PostResult.status 200) "org1"
      ["p1", "p2"] [Json.str "a", Json.str "b"]).2.mpr (fun p _ t _ => Or.inl rfl)⟩
